import Mathlib

/-!
Verification of the blood-pressure analyser app (React Native / TypeScript)
against its natural-language specification.

The development shallowly embeds the core logic of the repository:
the blood-pressure category functions of the two `Dashboard.tsx` revisions
and of the readings-list views, the dashboard averages, the confidence gate
of `handlePhotoTaken` in `App.tsx`, the provider selection of
`llmAnalysisService.analyzeBloodPressureImage`, the LLM-response parsing
pipeline of `llmAnalysis.ts` (fenced-code-block extraction, comment
stripping, `JSON.parse`), and the reading repository of
`supabaseClient.ts`.

Modelling conventions: JavaScript numbers are modelled as exact rationals
(all values appearing in the claims are small integers or short decimal
fractions, far from any double-precision boundary); JavaScript strings are
modelled as `List Char`; fallible code returns `Option` / `Except`.
-/

namespace BPA

/-- Result record of the `getBloodPressureCategory` functions: a category
label and a badge colour, exactly as returned by the source. -/
structure CategoryResult where
  category : String
  color : String
deriving DecidableEq, Repr

namespace Dashboard

/-- Embedding of `getBloodPressureCategory` from the first revision of
`src/components/Dashboard.tsx` (lines 115-121); the same function body
also appears in the readings-list views. -/
def getBloodPressureCategory (systolic diastolic : Int) : CategoryResult :=
  if systolic < 120 ∧ diastolic < 80 then ⟨"Normal", "#4CAF50"⟩
  else if systolic < 130 ∧ diastolic < 80 then ⟨"Elevated", "#FF9800"⟩
  else if systolic < 140 ∨ diastolic < 90 then ⟨"High Stage 1", "#F44336"⟩
  else if systolic < 180 ∨ diastolic < 120 then ⟨"High Stage 2", "#D32F2F"⟩
  else ⟨"Crisis", "#B71C1C"⟩

end Dashboard

namespace Dashboard2

/-- Embedding of `getBloodPressureCategory` from the second revision of
`src/components/Dashboard.tsx` (lines 568-575), which uses explicit range
conjunctions and a trailing `Normal` default. -/
def getBloodPressureCategory (systolic diastolic : Int) : CategoryResult :=
  if systolic < 120 ∧ diastolic < 80 then ⟨"Normal", "#4CAF50"⟩
  else if systolic < 130 ∧ diastolic < 80 then ⟨"Elevated", "#FF9800"⟩
  else if (130 ≤ systolic ∧ systolic < 140) ∨ (80 ≤ diastolic ∧ diastolic < 90) then
    ⟨"High Stage 1", "#F44336"⟩
  else if (140 ≤ systolic ∧ systolic < 180) ∨ (90 ≤ diastolic ∧ diastolic < 120) then
    ⟨"High Stage 2", "#D32F2F"⟩
  else if 180 ≤ systolic ∨ 120 ≤ diastolic then ⟨"Hypertensive Crisis", "#B71C1C"⟩
  else ⟨"Normal", "#4CAF50"⟩

end Dashboard2

namespace ReadingsList

/-- Embedding of `getBloodPressureCategory` as it appears in the
readings-list views (`src/unnamed/part_001`, e.g. lines 103-109, 585-591,
883-889); textually identical to the first dashboard revision. -/
def getBloodPressureCategory (systolic diastolic : Int) : CategoryResult :=
  if systolic < 120 ∧ diastolic < 80 then ⟨"Normal", "#4CAF50"⟩
  else if systolic < 130 ∧ diastolic < 80 then ⟨"Elevated", "#FF9800"⟩
  else if systolic < 140 ∨ diastolic < 90 then ⟨"High Stage 1", "#F44336"⟩
  else if systolic < 180 ∨ diastolic < 120 then ⟨"High Stage 2", "#D32F2F"⟩
  else ⟨"Crisis", "#B71C1C"⟩

end ReadingsList

/-- Abstract clinical bands named by the specification; the source labels
the crisis band `"Crisis"` in one revision and `"Hypertensive Crisis"` in
the other, so claims stated over bands are interpreted through this map. -/
inductive Band where
  | normal
  | elevated
  | stage1
  | stage2
  | crisis
deriving DecidableEq, Repr

/-- Maps a source category label to the abstract band it denotes. -/
def bandOf (label : String) : Option Band :=
  if label = "Normal" then some Band.normal
  else if label = "Elevated" then some Band.elevated
  else if label = "High Stage 1" then some Band.stage1
  else if label = "High Stage 2" then some Band.stage2
  else if label = "Crisis" ∨ label = "Hypertensive Crisis" then some Band.crisis
  else none

/-- JavaScript `Math.round` on a (rational-modelled) number: round half
towards positive infinity, i.e. the floor of `q + 1/2`. -/
def jsRound (q : ℚ) : Int := ⌊q + 1 / 2⌋

/-- Embedding of the `BloodPressureReading` interface of
`src/services/supabaseClient.ts`; optional interface fields are `Option`. -/
structure BloodPressureReading where
  id : Option String
  user_id : Option String
  systolic : Int
  diastolic : Int
  pulse : Int
  timestamp : String
  image_url : Option String
  notes : Option String
  created_at : Option String
deriving DecidableEq, Repr

/-- Triple of per-field values returned by `getAverages` (and used as its
internal fold accumulator). -/
structure Averages where
  systolic : Int
  diastolic : Int
  pulse : Int
deriving DecidableEq, Repr

/-- Embedding of `getAverages` from `src/components/Dashboard.tsx`
(lines 96-113, identical in the second revision at lines 549-566): on an
empty list return all zeroes, otherwise sum each field with a `reduce`
and divide by the list length under `Math.round`. -/
def getAverages (readings : List BloodPressureReading) : Averages :=
  if readings.length = 0 then ⟨0, 0, 0⟩
  else
    let sum := readings.foldl
      (fun acc r =>
        ⟨acc.systolic + r.systolic, acc.diastolic + r.diastolic, acc.pulse + r.pulse⟩)
      (⟨0, 0, 0⟩ : Averages)
    ⟨jsRound ((sum.systolic : ℚ) / (readings.length : ℚ)),
     jsRound ((sum.diastolic : ℚ) / (readings.length : ℚ)),
     jsRound ((sum.pulse : ℚ) / (readings.length : ℚ))⟩

/-- Value of `analysisResult.confidence` as seen by `handlePhotoTaken` in
`App.tsx`: a numeric value, `NaN`, or absent (`undefined`) because the
parsed model response carried no numeric `confidence` field. -/
inductive JsConfidence where
  | num (q : ℚ)
  | nan
  | undef
deriving DecidableEq, Repr

/-- JavaScript `<` comparison against a numeric literal: comparisons in
which one operand is `NaN` or `undefined` evaluate to `false`. -/
def jsLtConst (c : JsConfidence) (bound : ℚ) : Bool :=
  match c with
  | JsConfidence.num q => decide (q < bound)
  | JsConfidence.nan => false
  | JsConfidence.undef => false

/-- User reply to the low-confidence alert of `handlePhotoTaken`. -/
inductive UserDecision where
  | cancel
  | saveAnyway
deriving DecidableEq, Repr

/-- Observable outcome of one capture run: whether the low-confidence
confirmation alert was entered, and whether `saveReading` was invoked. -/
structure PipelineRun where
  enteredConfirmation : Bool
  saved : Bool
deriving DecidableEq, Repr

/-- Embedding of the confidence gate of `handlePhotoTaken` in `App.tsx`
(lines 31-45): when `analysisResult.confidence < 0.7` an alert with
`Cancel` / `Save Anyway` buttons is shown and `saveReading` runs only on
`Save Anyway`; otherwise `saveReading` runs immediately. -/
def handlePhotoTaken (confidence : JsConfidence) (decision : UserDecision) : PipelineRun :=
  if jsLtConst confidence (7 / 10) then
    { enteredConfirmation := true,
      saved := match decision with
        | UserDecision.saveAnyway => true
        | UserDecision.cancel => false }
  else
    { enteredConfirmation := false, saved := true }

/-- The two LLM providers of `llmAnalysis.ts`. -/
inductive Provider where
  | openai
  | anthropic
deriving DecidableEq, Repr

/-- Embedding of the `try` body of `analyzeBloodPressureImage` in
`src/services/llmAnalysis.ts` (lines 18-24): dispatch on which API key is
a non-empty (truthy) string, OpenAI first. The provider calls are
oracles; the second component records which providers were contacted. -/
def analyzeInner (α : Type) (openaiKey anthropicKey : String)
    (openaiCall anthropicCall : Except String α) : Except String α × List Provider :=
  if openaiKey ≠ "" then (openaiCall, [Provider.openai])
  else if anthropicKey ≠ "" then (anthropicCall, [Provider.anthropic])
  else (Except.error "No LLM API key configured", [])

/-- Embedding of `analyzeBloodPressureImage` including its `catch`
(lines 25-28), which rewraps every failure in a generic message. -/
def analyzeBloodPressureImage (α : Type) (openaiKey anthropicKey : String)
    (openaiCall anthropicCall : Except String α) : Except String α × List Provider :=
  match analyzeInner α openaiKey anthropicKey openaiCall anthropicCall with
  | (Except.ok v, calls) => (Except.ok v, calls)
  | (Except.error _, calls) => (Except.error "Failed to analyze blood pressure reading", calls)

/-- Patch argument of `updateReading` (`Partial<BloodPressureReading>`):
every field may be present or absent. -/
structure ReadingPatch where
  id : Option String := none
  user_id : Option String := none
  systolic : Option Int := none
  diastolic : Option Int := none
  pulse : Option Int := none
  timestamp : Option String := none
  image_url : Option (Option String) := none
  notes : Option (Option String) := none
  created_at : Option (Option String) := none
deriving DecidableEq, Repr

/-- Modelled from the spec: the storage backend (Supabase, outside this
repository) applies an `update` to a row by overwriting exactly the
columns present in the patch and keeping every other column. -/
def applyPatch (p : ReadingPatch) (r : BloodPressureReading) : BloodPressureReading :=
  { id := (p.id.map some).getD r.id,
    user_id := (p.user_id.map some).getD r.user_id,
    systolic := p.systolic.getD r.systolic,
    diastolic := p.diastolic.getD r.diastolic,
    pulse := p.pulse.getD r.pulse,
    timestamp := p.timestamp.getD r.timestamp,
    image_url := p.image_url.getD r.image_url,
    notes := p.notes.getD r.notes,
    created_at := p.created_at.getD r.created_at }

/-- Embedding of `bloodPressureService.updateReading` from
`src/services/supabaseClient.ts` (lines 215-235): the update is filtered
by `.eq('id', id).eq('user_id', user.id)`, so exactly the rows matching
both the id and the authenticated user are patched. The row store itself
is modelled from the spec as a list of rows. -/
def updateReading (db : List BloodPressureReading) (uid : String) (id : String)
    (p : ReadingPatch) : List BloodPressureReading :=
  db.map fun r => if r.id = some id ∧ r.user_id = some uid then applyPatch p r else r

/-- Embedding of `bloodPressureService.getAllReadings` from
`src/services/supabaseClient.ts` (lines 156-174): select the
authenticated user's rows ordered by `timestamp` descending (ISO-8601
timestamp strings, so string order is chronological order). -/
def getAllReadings (db : List BloodPressureReading) (uid : String) :
    List BloodPressureReading :=
  (db.filter fun r => r.user_id = some uid).mergeSort
    fun a b => decide (b.timestamp ≤ a.timestamp)

/-- Backtick character, written by code point to keep the source free of
raw backticks. -/
def tick : Char := '\x60'

/-- Opening brace character. -/
def lbrace : Char := '\x7b'

/-- Closing brace character. -/
def rbrace : Char := '\x7d'

/-- Characters matched by the JavaScript regex class `\\s` (ASCII
whitespace, the Unicode space separators, the line separators, and the
byte-order mark). -/
def isJsWs (c : Char) : Bool :=
  c = ' ' || c = '\t' || c = '\n' || c = '\r' || c = '\x0b' || c = '\x0c' ||
  c = '\u00a0' || c = '\u1680' ||
  ('\u2000' ≤ c && c ≤ '\u200a') ||
  c = '\u2028' || c = '\u2029' || c = '\u202f' || c = '\u205f' ||
  c = '\u3000' || c = '\ufeff'

/-- Drops the longest prefix of `\s` characters (greedy `\s*`). -/
def skipWs : List Char → List Char
  | [] => []
  | c :: cs => if isJsWs c then skipWs cs else c :: cs

/-- Tests whether the second list starts with the first (a regex literal
sequence matching at the current position). -/
def hasPre : List Char → List Char → Bool
  | [], _ => true
  | _ :: _, [] => false
  | p :: ps, c :: cs => p = c && hasPre ps cs

/-- Three backticks, the code-fence delimiter of the extraction regex. -/
def fenceTicks : List Char := [tick, tick, tick]

/-- After the lazily matched group body, the regex requires `\s*` and then
a closing fence: this is that test. -/
def fenceTailOk (cs : List Char) : Bool := hasPre fenceTicks (skipWs cs)

/-- Lazy matching of the group `\{[\s\S]*?\}` (after its opening brace was
consumed) followed by `\s*` and three backticks: extends the body to the
nearest closing brace whose tail is whitespace and a closing fence.
Returns the group body including its final brace. -/
def lazyBody : List Char → Option (List Char)
  | [] => none
  | c :: cs =>
    if c = rbrace && fenceTailOk cs then some [rbrace]
    else (lazyBody cs).map fun b => c :: b

/-- Attempts the fence-extraction regex
(three backticks, optional `json`, `\s*`, a lazily matched brace group,
`\s*`, three backticks) anchored at the head of the list, returning the
captured group. The optional `json` and the `\s*` steps are
deterministic here because a failed greedy choice can never be rescued:
the character after a shorter match is never `\x7b` resp. a backtick. -/
def matchAt (s : List Char) : Option (List Char) :=
  if hasPre fenceTicks s then
    let r := s.drop 3
    let r1 := if hasPre ['j', 's', 'o', 'n'] r then r.drop 4 else r
    match skipWs r1 with
    | c :: rest =>
      if c = lbrace then (lazyBody rest).map fun b => lbrace :: b else none
    | [] => none
  else none

/-- Leftmost regex search: try the pattern at every start position, first
success wins, as in JavaScript `String.prototype.match`. -/
def regexSearch : List Char → Option (List Char)
  | [] => none
  | c :: cs =>
    match matchAt (c :: cs) with
    | some g => some g
    | none => regexSearch cs

/-- Embedding of the fenced-code-block extraction step of both providers
in `src/services/llmAnalysis.ts` (lines 105-106 and 180-181): if the
fence regex matches, the captured group replaces the content, otherwise
the content is used unchanged. -/
def extractJson (content : List Char) : List Char :=
  match regexSearch content with
  | some g => g
  | none => content

/-- Line terminators recognised by `$` in a JavaScript multiline regex
(and excluded from `.`). -/
def isLineTerm (c : Char) : Bool :=
  c = '\n' || c = '\r' || c = '\u2028' || c = '\u2029'

/-- Embedding of `jsonString.replace(/\\/\\/.*$/gm, '')` in
`src/services/llmAnalysis.ts` (lines 109 and 184), as a two-mode scan:
outside a comment, a pair of slashes switches into comment mode; in
comment mode characters are dropped up to the next line terminator.
This removes, on every line, the first pair of slashes and everything
after it up to the line end, which is exactly what the global multiline
regex removes. The regex is oblivious to JSON string literals, so a pair
of slashes inside a quoted string is removed all the same. -/
def stripLineCommentsAux : Bool → List Char → List Char
  | _, [] => []
  | true, c :: cs =>
    if isLineTerm c then c :: stripLineCommentsAux false cs
    else stripLineCommentsAux true cs
  | false, c :: cs =>
    match cs with
    | [] => [c]
    | c₂ :: cs₂ =>
      if c = '/' ∧ c₂ = '/' then stripLineCommentsAux true cs₂
      else c :: stripLineCommentsAux false (c₂ :: cs₂)

/-- Entry point of the line-comment removal scan. -/
def stripLineComments (l : List Char) : List Char := stripLineCommentsAux false l

/-- Tests whether a block-comment closer occurs anywhere in the list; a
`/*` without a later `*/` is not matched by the lazy block-comment regex
and stays in the text. -/
def hasBlockClose : List Char → Bool
  | [] => false
  | c :: cs =>
    match cs with
    | [] => false
    | c₂ :: cs₂ => (c = '*' ∧ c₂ = '/') || hasBlockClose (c₂ :: cs₂)

/-- Embedding of `.replace(/\\/\\*[\\s\\S]*?\\*\\//g, '')` in
`src/services/llmAnalysis.ts` (lines 109 and 184), as a two-mode scan:
outside a comment, an opener with some later closer switches into
comment mode (an unterminated opener is kept verbatim together with the
rest of the text, since no further match is possible); in comment mode
characters are dropped up to and including the nearest closer, matching
the lazy quantifier. -/
def stripBlockCommentsAux : Bool → List Char → List Char
  | _, [] => []
  | true, c :: cs =>
    match cs with
    | [] => []
    | c₂ :: cs₂ =>
      if c = '*' ∧ c₂ = '/' then stripBlockCommentsAux false cs₂
      else stripBlockCommentsAux true (c₂ :: cs₂)
  | false, c :: cs =>
    match cs with
    | [] => [c]
    | c₂ :: cs₂ =>
      if c = '/' ∧ c₂ = '*' then
        if hasBlockClose cs₂ then stripBlockCommentsAux true cs₂
        else c :: c₂ :: cs₂
      else c :: stripBlockCommentsAux false (c₂ :: cs₂)

/-- Entry point of the block-comment removal scan. -/
def stripBlockComments (l : List Char) : List Char := stripBlockCommentsAux false l

/-- Exact value of a JSON numeric literal, kept as a decimal
mantissa/exponent pair denoting `mantissa * 10 ^ exp10` (the further
rounding to a double is not modelled; no claim depends on it). -/
structure JsonNumber where
  mantissa : Int
  exp10 : Int
deriving DecidableEq, Repr

/-- Rational denoted by a parsed JSON number. -/
def JsonNumber.toRat (n : JsonNumber) : ℚ := (n.mantissa : ℚ) * (10 : ℚ) ^ n.exp10

/-- JSON values as produced by JavaScript `JSON.parse`: numbers as exact
decimal literals, strings as character lists, objects as ordered field
lists (construction keeps the first position and the last value of a
repeated key, as JavaScript property definition does). -/
inductive JSValue where
  | null
  | bool (b : Bool)
  | num (n : JsonNumber)
  | str (s : List Char)
  | arr (elems : List JSValue)
  | obj (fields : List (List Char × JSValue))

/-- Whitespace accepted by `JSON.parse` between tokens (only these four
characters, unlike the regex class `\\s`). -/
def isJsonWs (c : Char) : Bool := c = ' ' || c = '\t' || c = '\n' || c = '\r'

/-- Drops leading JSON whitespace. -/
def skipJsonWs : List Char → List Char
  | [] => []
  | c :: cs => if isJsonWs c then skipJsonWs cs else c :: cs

/-- Value of a hexadecimal digit, used for `\\uXXXX` string escapes. -/
def hexDigit (c : Char) : Option Nat :=
  if '0' ≤ c && c ≤ '9' then some (c.toNat - 48)
  else if 'a' ≤ c && c ≤ 'f' then some (c.toNat - 87)
  else if 'A' ≤ c && c ≤ 'F' then some (c.toNat - 55)
  else none

/-- Parses the body of a JSON string after its opening quote, returning
the decoded characters and the input after the closing quote. Escapes
are decoded per the JSON grammar; raw control characters are rejected.
(Surrogate pairs are out of scope: no claim involves characters beyond
the basic plane.) -/
def parseStringBody : Nat → List Char → Option (List Char × List Char)
  | 0, _ => none
  | _, [] => none
  | fuel + 1, c :: cs =>
    if c = '"' then some ([], cs)
    else if c = '\\' then
      match cs with
      | [] => none
      | e :: cs2 =>
        if e = '"' then (parseStringBody fuel cs2).map fun p => ('"' :: p.1, p.2)
        else if e = '\\' then (parseStringBody fuel cs2).map fun p => ('\\' :: p.1, p.2)
        else if e = '/' then (parseStringBody fuel cs2).map fun p => ('/' :: p.1, p.2)
        else if e = 'b' then (parseStringBody fuel cs2).map fun p => ('\x08' :: p.1, p.2)
        else if e = 'f' then (parseStringBody fuel cs2).map fun p => ('\x0c' :: p.1, p.2)
        else if e = 'n' then (parseStringBody fuel cs2).map fun p => ('\n' :: p.1, p.2)
        else if e = 'r' then (parseStringBody fuel cs2).map fun p => ('\r' :: p.1, p.2)
        else if e = 't' then (parseStringBody fuel cs2).map fun p => ('\t' :: p.1, p.2)
        else if e = 'u' then
          match cs2 with
          | a :: b :: c2 :: d :: cs3 =>
            match hexDigit a, hexDigit b, hexDigit c2, hexDigit d with
            | some ha, some hb, some hc, some hd =>
              (parseStringBody fuel cs3).map fun p =>
                (Char.ofNat (((ha * 16 + hb) * 16 + hc) * 16 + hd) :: p.1, p.2)
            | _, _, _, _ => none
          | _ => none
        else none
    else if c.toNat < 32 then none
    else (parseStringBody fuel cs).map fun p => (c :: p.1, p.2)

/-- Splits off the longest prefix of decimal digits. -/
def spanDigits : List Char → List Char × List Char
  | [] => ([], [])
  | c :: cs =>
    if '0' ≤ c && c ≤ '9' then
      let p := spanDigits cs
      (c :: p.1, p.2)
    else ([], c :: cs)

/-- Numeric value of a digit list. -/
def digitsToNat (ds : List Char) : Nat := ds.foldl (fun a c => a * 10 + (c.toNat - 48)) 0

/-- Parses the optional fraction part of a JSON number, returning its
digits. -/
def parseFracDigits : List Char → Option (List Char × List Char)
  | '.' :: r =>
    let p := spanDigits r
    if p.1 = [] then none else some (p.1, p.2)
  | s => some ([], s)

/-- Parses the optional exponent part of a JSON number. -/
def parseExp : List Char → Option (Int × List Char)
  | c :: r =>
    if c = 'e' || c = 'E' then
      let signed : Bool × List Char :=
        match r with
        | '+' :: r2 => (false, r2)
        | '-' :: r2 => (true, r2)
        | _ => (false, r)
      let p := spanDigits signed.2
      if p.1 = [] then none
      else some ((if signed.1 then -(digitsToNat p.1 : Int) else (digitsToNat p.1 : Int)), p.2)
    else some (0, c :: r)
  | [] => some (0, [])

/-- Parses a JSON number per the `JSON.parse` grammar (optional minus,
integer part without leading zeros, optional fraction and exponent). -/
def parseNumber (s : List Char) : Option (JsonNumber × List Char) :=
  let signed : Bool × List Char :=
    match s with
    | '-' :: r => (true, r)
    | _ => (false, s)
  let ip := spanDigits signed.2
  if ip.1 = [] then none
  else if ip.1.length > 1 && ip.1.headD '0' = '0' then none
  else
    match parseFracDigits ip.2 with
    | none => none
    | some (fds, s2) =>
      match parseExp s2 with
      | none => none
      | some (e, s3) =>
        let mag : Int := (digitsToNat (ip.1 ++ fds) : Int)
        some (⟨(if signed.1 then -mag else mag), e - fds.length⟩, s3)

/-- Reads the value of a key on an object field list as JavaScript
property access does: on the (never parser-produced) artefact of a
repeated key, the first binding wins, matching the unique-slot object
this list stands for. -/
def objGet : List (List Char × JSValue) → List Char → Option JSValue
  | [], _ => none
  | f :: fs, k => if f.1 = k then some f.2 else objGet fs k

/-- Assigns a key on an object field list as JavaScript property
assignment does: overwrite in place when the key is present, append
otherwise. -/
def objSet : List (List Char × JSValue) → List Char → JSValue → List (List Char × JSValue)
  | [], k, v => [(k, v)]
  | f :: fs, k, v => if f.1 = k then (k, v) :: fs else f :: objSet fs k v

/-- Folds parsed members into an object field list by repeated property
definition, so a repeated key keeps its first position and last value,
as `JSON.parse` does. -/
def buildObj (members : List (List Char × JSValue)) : List (List Char × JSValue) :=
  members.foldl (fun acc kv => objSet acc kv.1 kv.2) []

mutual

/-- Parses one JSON value (after skipping leading whitespace), returning
it together with the unconsumed input. Fuel only bounds the recursion
depth; `jsonParse` passes enough for any input. -/
def parseValue : Nat → List Char → Option (JSValue × List Char)
  | 0, _ => none
  | fuel + 1, s =>
    match skipJsonWs s with
    | [] => none
    | c :: cs =>
      if c = '"' then
        match parseStringBody (cs.length + 1) cs with
        | some (str, r) => some (JSValue.str str, r)
        | none => none
      else if c = lbrace then
        match skipJsonWs cs with
        | c2 :: r =>
          if c2 = rbrace then some (JSValue.obj [], r)
          else
            match parseMembers fuel (c2 :: r) with
            | some (ms, r2) => some (JSValue.obj (buildObj ms), r2)
            | none => none
        | [] => none
      else if c = '[' then
        match skipJsonWs cs with
        | ']' :: r => some (JSValue.arr [], r)
        | cs2 =>
          match parseElems fuel cs2 with
          | some (vs, r2) => some (JSValue.arr vs, r2)
          | none => none
      else if c = 't' then
        match cs with
        | 'r' :: 'u' :: 'e' :: r => some (JSValue.bool true, r)
        | _ => none
      else if c = 'f' then
        match cs with
        | 'a' :: 'l' :: 's' :: 'e' :: r => some (JSValue.bool false, r)
        | _ => none
      else if c = 'n' then
        match cs with
        | 'u' :: 'l' :: 'l' :: r => some (JSValue.null, r)
        | _ => none
      else
        match parseNumber (c :: cs) with
        | some (q, r) => some (JSValue.num q, r)
        | none => none

/-- Parses the members of a JSON object, positioned at the first member
with leading whitespace already consumed; consumes the closing brace. -/
def parseMembers : Nat → List Char → Option (List (List Char × JSValue) × List Char)
  | 0, _ => none
  | fuel + 1, s =>
    match s with
    | '"' :: cs =>
      match parseStringBody (cs.length + 1) cs with
      | some (key, r1) =>
        match skipJsonWs r1 with
        | ':' :: r2 =>
          match parseValue fuel r2 with
          | some (v, r3) =>
            match skipJsonWs r3 with
            | c4 :: r4 =>
              if c4 = ',' then
                match parseMembers fuel (skipJsonWs r4) with
                | some (ms, r5) => some ((key, v) :: ms, r5)
                | none => none
              else if c4 = rbrace then some ([(key, v)], r4)
              else none
            | [] => none
          | none => none
        | _ => none
      | none => none
    | _ => none

/-- Parses the elements of a JSON array, positioned at the first element;
consumes the closing bracket. -/
def parseElems : Nat → List Char → Option (List JSValue × List Char)
  | 0, _ => none
  | fuel + 1, s =>
    match parseValue fuel s with
    | some (v, r) =>
      match skipJsonWs r with
      | ',' :: r2 =>
        match parseElems fuel r2 with
        | some (vs, r3) => some (v :: vs, r3)
        | none => none
      | ']' :: r2 => some ([v], r2)
      | _ => none
    | none => none

end

/-- Embedding of JavaScript `JSON.parse`: parse one value, allow trailing
whitespace, reject trailing content. The fuel `2 * length + 2` exceeds
the recursion depth any input can force (each recursive step consumes at
least one character and no step consumes more than two units of fuel per
character). -/
def jsonParse (s : List Char) : Option JSValue :=
  match parseValue (2 * s.length + 2) s with
  | some (v, r) => if skipJsonWs r = [] then some v else none
  | none => none

/-- Embedding of the response-text processing shared by both provider
functions in `src/services/llmAnalysis.ts` (lines 103-111 and 178-186):
extract a fenced code block when the fence regex matches, strip line
comments, strip block comments, then `JSON.parse`. `none` is the case in
which `JSON.parse` throws and the provider function reports a parse
failure. -/
def parseLLMResponse (content : List Char) : Option JSValue :=
  jsonParse (stripBlockComments (stripLineComments (extractJson content)))

/-- Key `"timestamp"` as a character list. -/
def timestampKey : List Char := "timestamp".toList

/-- Key `"usage"` as a character list. -/
def usageKey : List Char := "usage".toList

/-- Embedding of the result construction of `analyzeWithOpenAI`
(lines 103-121): after a successful parse the `timestamp` property is
assigned the client's completion time (`new Date().toISOString()`), and
the returned spread `{ ...result, usage: data.usage }` adds the token
usage. A non-object parse result is modelled as a failure (property
assignment on a primitive throws in strict mode; no claim concerns
non-object responses). -/
def analyzeWithOpenAI (content now : List Char) (usage : JSValue) : Option JSValue :=
  match parseLLMResponse content with
  | some (JSValue.obj fs) =>
    some (JSValue.obj (objSet (objSet fs timestampKey (JSValue.str now)) usageKey usage))
  | some _ => none
  | none => none

/-- Embedding of the result construction of `analyzeWithAnthropic`
(lines 175-191): the parsed JSON is returned as is, with no timestamp
assignment and no usage field. -/
def analyzeWithAnthropic (content : List Char) : Option JSValue :=
  parseLLMResponse content

/-- Timestamp of an analysis result: the `timestamp` property of the
returned object, when the result is an object that has one. -/
def resultTimestamp : Option JSValue → Option JSValue
  | some (JSValue.obj fs) => objGet fs timestampKey
  | _ => none

/-- Tests whether the adjacent pair `a` then `b` occurs anywhere in the
list (used to state that a text contains no comment opener). -/
def hasPair (a b : Char) : List Char → Bool
  | [] => false
  | c :: cs =>
    match cs with
    | [] => false
    | c₂ :: cs₂ => (c = a ∧ c₂ = b) || hasPair a b (c₂ :: cs₂)

/-- Opening fence of a response wrapped in a tagged code block (the
characters of three backticks, `json`, and a newline). -/
def fenceJsonOpen : List Char := [tick, tick, tick, 'j', 's', 'o', 'n', '\n']

/-- Opening fence of a response wrapped in an untagged code block. -/
def fencePlainOpen : List Char := [tick, tick, tick, '\n']

/-- Closing fence of a response wrapped in a code block. -/
def fenceClose : List Char := ['\n', tick, tick, tick]

/-- Sample Anthropic response body: a complete extraction result whose
model-reported timestamp is from 2020. -/
def anthropicSampleContent : List Char :=
  ("\x7b\"systolic\":120,\"diastolic\":80,\"pulse\":72,\"timestamp\":\"2020-01-01T00:00:00Z\"," ++
   "\"confidence\":0.95,\"notes\":\"ok\"\x7d").toList

/-- Field list that `JSON.parse` produces for the sample response. -/
def anthropicSampleFields : List (List Char × JSValue) :=
  [("systolic".toList, JSValue.num ⟨120, 0⟩),
   ("diastolic".toList, JSValue.num ⟨80, 0⟩),
   ("pulse".toList, JSValue.num ⟨72, 0⟩),
   ("timestamp".toList, JSValue.str "2020-01-01T00:00:00Z".toList),
   ("confidence".toList, JSValue.num ⟨95, -2⟩),
   ("notes".toList, JSValue.str "ok".toList)]

/-- Sample analysis completion time computed by the client. -/
def clientCompletionTime : List Char := "2025-06-01T12:00:00.000Z".toList

/-- Response text that is a JSON object carrying a pair of slashes inside
a string value (a URL). -/
def urlResponse : List Char := "\x7b\"notes\":\"http://a\"\x7d".toList

/-- Response text with a line comment between members. -/
def lineCommentSample : List Char := "\x7b\"a\":1, // c\n\"b\":2\x7d".toList

/-- Response text that is a JSON object without any of the expected
analysis fields. -/
def unexpectedFieldsSample : List Char := "\x7b\"foo\":1\x7d".toList

/-- Sample stored row used to witness the repository round-trip. -/
def sampleReading : BloodPressureReading :=
  ⟨some "id1", some "u1", 120, 80, 70, "2025-01-02T00:00:00Z", none, none, some "c1"⟩

/-- Sample patch (only the systolic field) used to witness the repository
round-trip. -/
def samplePatch : ReadingPatch := { systolic := some 130 }

/-! ### Helper lemmas -/

/-- The record fold of `getAverages` accumulates exactly the three
per-field sums. -/
theorem averages_foldl (rs : List BloodPressureReading) (a : Averages) :
    rs.foldl
      (fun acc r =>
        ⟨acc.systolic + r.systolic, acc.diastolic + r.diastolic, acc.pulse + r.pulse⟩)
      a =
    ⟨a.systolic + (rs.map fun r => r.systolic).sum,
     a.diastolic + (rs.map fun r => r.diastolic).sum,
     a.pulse + (rs.map fun r => r.pulse).sum⟩ := by
  induction rs generalizing a with
  | nil => simp
  | cons r rs ih =>
    simp only [List.foldl_cons, List.map_cons, List.sum_cons, ih]
    simp only [Averages.mk.injEq]
    omega

/-- Rounding an exact integer gives the integer back. -/
theorem jsRound_intCast (x : Int) : jsRound (x : ℚ) = x := by
  rw [jsRound, Int.floor_int_add]
  norm_num

/-! ### Claims -/

/-- C4: the category functions of both dashboard revisions and of the
readings-list views classify (119,79) as Normal, (125,79) as Elevated,
(135,85) as High Stage 1, (145,95) as High Stage 2 and (185,125) as the
crisis band, and the boundary input (120,80) resolves to exactly the
High Stage 1 band in every revision. -/
theorem categorize_point_values :
    bandOf (Dashboard.getBloodPressureCategory 119 79).category = some Band.normal ∧
    bandOf (Dashboard.getBloodPressureCategory 125 79).category = some Band.elevated ∧
    bandOf (Dashboard.getBloodPressureCategory 135 85).category = some Band.stage1 ∧
    bandOf (Dashboard.getBloodPressureCategory 145 95).category = some Band.stage2 ∧
    bandOf (Dashboard.getBloodPressureCategory 185 125).category = some Band.crisis ∧
    bandOf (Dashboard.getBloodPressureCategory 120 80).category = some Band.stage1 ∧
    bandOf (Dashboard2.getBloodPressureCategory 119 79).category = some Band.normal ∧
    bandOf (Dashboard2.getBloodPressureCategory 125 79).category = some Band.elevated ∧
    bandOf (Dashboard2.getBloodPressureCategory 135 85).category = some Band.stage1 ∧
    bandOf (Dashboard2.getBloodPressureCategory 145 95).category = some Band.stage2 ∧
    bandOf (Dashboard2.getBloodPressureCategory 185 125).category = some Band.crisis ∧
    bandOf (Dashboard2.getBloodPressureCategory 120 80).category = some Band.stage1 ∧
    bandOf (ReadingsList.getBloodPressureCategory 119 79).category = some Band.normal ∧
    bandOf (ReadingsList.getBloodPressureCategory 125 79).category = some Band.elevated ∧
    bandOf (ReadingsList.getBloodPressureCategory 135 85).category = some Band.stage1 ∧
    bandOf (ReadingsList.getBloodPressureCategory 145 95).category = some Band.stage2 ∧
    bandOf (ReadingsList.getBloodPressureCategory 185 125).category = some Band.crisis ∧
    bandOf (ReadingsList.getBloodPressureCategory 120 80).category = some Band.stage1 := by
  decide

/-- C9: the two dashboard category revisions disagree: at systolic 100
and diastolic 100 the first revision (exclusive-or style conditions)
answers High Stage 1 while the second (explicit range conjunctions)
answers High Stage 2, so the first cannot report the Stage 2 band on an
input whose diastolic value alone is in the Stage 2 range. -/
theorem categorize_revisions_disagree :
    (Dashboard.getBloodPressureCategory 100 100).category = "High Stage 1" ∧
    (Dashboard2.getBloodPressureCategory 100 100).category = "High Stage 2" ∧
    Dashboard.getBloodPressureCategory 100 100 ≠ Dashboard2.getBloodPressureCategory 100 100 ∧
    bandOf (Dashboard2.getBloodPressureCategory 100 100).category = some Band.stage2 ∧
    bandOf (Dashboard.getBloodPressureCategory 100 100).category ≠ some Band.stage2 := by
  decide

/-- C10: the category function of the first dashboard revision and of the
readings-list views never answers High Stage 2 or Crisis while the
diastolic value is below 90, and answers Crisis exactly when systolic is
at least 180 and diastolic at least 120. -/
theorem no_stage2_below_diastolic90 (s d : Int) :
    (d < 90 →
      (Dashboard.getBloodPressureCategory s d).category = "Normal" ∨
      (Dashboard.getBloodPressureCategory s d).category = "Elevated" ∨
      (Dashboard.getBloodPressureCategory s d).category = "High Stage 1") ∧
    ((Dashboard.getBloodPressureCategory s d).category = "Crisis" ↔ 180 ≤ s ∧ 120 ≤ d) ∧
    (d < 90 →
      (ReadingsList.getBloodPressureCategory s d).category = "Normal" ∨
      (ReadingsList.getBloodPressureCategory s d).category = "Elevated" ∨
      (ReadingsList.getBloodPressureCategory s d).category = "High Stage 1") ∧
    ((ReadingsList.getBloodPressureCategory s d).category = "Crisis" ↔ 180 ≤ s ∧ 120 ≤ d) := by
  unfold Dashboard.getBloodPressureCategory ReadingsList.getBloodPressureCategory
  split_ifs <;> simp_all <;> omega

/-- Witness for C10 at systolic 185, diastolic 85 (a systolic value in
crisis range alone does not produce the crisis label). -/
theorem no_stage2_below_diastolic90_witness :
    ((85 : Int) < 90) ∧
    ((Dashboard.getBloodPressureCategory 185 85).category = "Normal" ∨
     (Dashboard.getBloodPressureCategory 185 85).category = "Elevated" ∨
     (Dashboard.getBloodPressureCategory 185 85).category = "High Stage 1") :=
  ⟨by decide, (no_stage2_below_diastolic90 185 85).1 (by decide)⟩

/-- C5: `getAverages` returns the all-zero sentinel on an empty list (not
an error); on any non-empty list it returns, for each field, the
arithmetic mean of that field rounded by `Math.round`; on a one-element
list it returns that reading's own three fields. -/
theorem getAverages_spec (rs : List BloodPressureReading) (r : BloodPressureReading)
    (hne : rs ≠ []) :
    getAverages [] = ⟨0, 0, 0⟩ ∧
    getAverages rs =
      ⟨jsRound (((rs.map fun x => x.systolic).sum : ℚ) / (rs.length : ℚ)),
       jsRound (((rs.map fun x => x.diastolic).sum : ℚ) / (rs.length : ℚ)),
       jsRound (((rs.map fun x => x.pulse).sum : ℚ) / (rs.length : ℚ))⟩ ∧
    getAverages [r] = ⟨r.systolic, r.diastolic, r.pulse⟩ := by
  have hlen : rs.length ≠ 0 := by simpa using hne
  refine ⟨by simp [getAverages], ?_, ?_⟩
  · simp [getAverages, hlen, averages_foldl, Function.comp_def]
  · simp [getAverages, averages_foldl, jsRound_intCast]

/-- Witness for C5 at a concrete one-element list. -/
theorem getAverages_spec_witness :
    ([⟨none, none, 120, 80, 70, "t", none, none, none⟩] :
      List BloodPressureReading) ≠ [] ∧
    getAverages [⟨none, none, 120, 80, 70, "t", none, none, none⟩] = ⟨120, 80, 70⟩ :=
  ⟨by decide,
   (getAverages_spec [⟨none, none, 120, 80, 70, "t", none, none, none⟩]
     ⟨none, none, 120, 80, 70, "t", none, none, none⟩ (by decide)).2.2⟩

/-- C1: for a numeric confidence in the unit interval, a value of at
least 0.7 saves the reading immediately without entering the
confirmation state, and a value below 0.7 always enters the confirmation
state, after which the reading is saved exactly when the user chooses
Save Anyway; the extracted vitals play no part in the branch. -/
theorem confidence_gate (c : ℚ) (h0 : 0 ≤ c) (h1 : c ≤ 1) (d : UserDecision) :
    (7 / 10 ≤ c →
      handlePhotoTaken (JsConfidence.num c) d =
        { enteredConfirmation := false, saved := true }) ∧
    (c < 7 / 10 →
      (handlePhotoTaken (JsConfidence.num c) d).enteredConfirmation = true ∧
      ((handlePhotoTaken (JsConfidence.num c) d).saved = true ↔
        d = UserDecision.saveAnyway)) := by
  constructor
  · intro hge
    simp [handlePhotoTaken, jsLtConst, not_lt.mpr hge]
  · intro hlt
    cases d <;> simp [handlePhotoTaken, jsLtConst, hlt]

/-- Witness for C1 at confidence 0.95 and at confidence 0.4. -/
theorem confidence_gate_witness :
    ((0 : ℚ) ≤ 19 / 20 ∧ (19 : ℚ) / 20 ≤ 1 ∧
      handlePhotoTaken (JsConfidence.num (19 / 20)) UserDecision.cancel =
        { enteredConfirmation := false, saved := true }) ∧
    ((0 : ℚ) ≤ 2 / 5 ∧ (2 : ℚ) / 5 ≤ 1 ∧
      (handlePhotoTaken (JsConfidence.num (2 / 5)) UserDecision.cancel).enteredConfirmation
        = true) :=
  ⟨⟨by norm_num, by norm_num,
    (confidence_gate (19 / 20) (by norm_num) (by norm_num) UserDecision.cancel).1
      (by norm_num)⟩,
   ⟨by norm_num, by norm_num,
    ((confidence_gate (2 / 5) (by norm_num) (by norm_num) UserDecision.cancel).2
      (by norm_num)).1⟩⟩

/-- C2 (code behaviour at the failing inputs): when the `confidence`
field is absent, `NaN`, or a number above the unit interval, the
comparison `confidence < 0.7` is false, so `handlePhotoTaken` saves the
reading immediately and the confirmation state is never entered —
contradicting the required lowest-trust-tier handling. -/
theorem confidence_outside_range_autosaves :
    handlePhotoTaken JsConfidence.undef UserDecision.cancel =
      { enteredConfirmation := false, saved := true } ∧
    handlePhotoTaken JsConfidence.nan UserDecision.cancel =
      { enteredConfirmation := false, saved := true } ∧
    handlePhotoTaken (JsConfidence.num (3 / 2)) UserDecision.cancel =
      { enteredConfirmation := false, saved := true } := by
  refine ⟨by simp [handlePhotoTaken, jsLtConst], by simp [handlePhotoTaken, jsLtConst], ?_⟩
  have h : ¬((3 : ℚ) / 2 < 7 / 10) := by norm_num
  simp [handlePhotoTaken, jsLtConst, h]

/-- C7: `analyzeBloodPressureImage` contacts exactly the OpenAI provider
whenever its key is configured, otherwise exactly the Anthropic provider
when that key is configured; with neither key it contacts no provider
and fails, the inner configuration error being rewrapped by the `catch`
into the generic analysis failure. -/
theorem provider_selection (α : Type) (okey akey : String)
    (oc ac : Except String α) :
    (okey ≠ "" →
      (analyzeBloodPressureImage α okey akey oc ac).2 = [Provider.openai]) ∧
    (okey = "" → akey ≠ "" →
      (analyzeBloodPressureImage α okey akey oc ac).2 = [Provider.anthropic]) ∧
    (okey = "" → akey = "" →
      analyzeInner α okey akey oc ac = (Except.error "No LLM API key configured", []) ∧
      analyzeBloodPressureImage α okey akey oc ac =
        (Except.error "Failed to analyze blood pressure reading", [])) := by
  refine ⟨?_, ?_, ?_⟩
  · intro ho
    cases oc <;> simp [analyzeBloodPressureImage, analyzeInner, ho]
  · intro ho ha
    cases ac <;> simp [analyzeBloodPressureImage, analyzeInner, ho, ha]
  · intro ho ha
    simp [analyzeBloodPressureImage, analyzeInner, ho, ha]

/-- Witness for C7 with a configured OpenAI key, with only an Anthropic
key, and with no key at all. -/
theorem provider_selection_witness :
    (("sk-a" : String) ≠ "" ∧
      (analyzeBloodPressureImage Nat "sk-a" "" (Except.ok 1) (Except.ok 2)).2 =
        [Provider.openai]) ∧
    (analyzeBloodPressureImage Nat "" "sk-b" (Except.ok 1) (Except.ok 2)).2 =
      [Provider.anthropic] ∧
    analyzeBloodPressureImage Nat "" "" (Except.ok 1) (Except.ok 2) =
      (Except.error "Failed to analyze blood pressure reading", []) :=
  ⟨⟨by decide,
    (provider_selection Nat "sk-a" "" (Except.ok 1) (Except.ok 2)).1 (by decide)⟩,
   (provider_selection Nat "" "sk-b" (Except.ok 1) (Except.ok 2)).2.1 rfl (by decide),
   ((provider_selection Nat "" "" (Except.ok 1) (Except.ok 2)).2.2 rfl rfl).2⟩

/-- Membership in the result of `getAllReadings` is membership in the
store filtered to the caller's rows (ordering permutes, so membership is
preserved). -/
theorem getAllReadings_mem (db : List BloodPressureReading) (uid : String)
    (r : BloodPressureReading) :
    r ∈ getAllReadings db uid ↔ r ∈ db ∧ r.user_id = some uid := by
  unfold getAllReadings
  rw [List.Perm.mem_iff (List.mergeSort_perm _ _)]
  simp [List.mem_filter]

/-- C8: patching a stored reading owned by the caller and listing again
shows the patched row: the patched field carries the new value, while
the id, the owner, the timestamp and every other field outside the patch
keep their previous values. -/
theorem updateReading_roundtrip (db : List BloodPressureReading) (uid id : String)
    (p : ReadingPatch) (r : BloodPressureReading)
    (hr : r ∈ db) (hid : r.id = some id) (huid : r.user_id = some uid)
    (hpu : p.user_id = none) :
    applyPatch p r ∈ getAllReadings (updateReading db uid id p) uid ∧
    (p.id = none → (applyPatch p r).id = r.id) ∧
    (applyPatch p r).user_id = r.user_id ∧
    (p.timestamp = none → (applyPatch p r).timestamp = r.timestamp) ∧
    (p.systolic = none → (applyPatch p r).systolic = r.systolic) ∧
    (p.diastolic = none → (applyPatch p r).diastolic = r.diastolic) ∧
    (p.pulse = none → (applyPatch p r).pulse = r.pulse) ∧
    (p.image_url = none → (applyPatch p r).image_url = r.image_url) ∧
    (p.notes = none → (applyPatch p r).notes = r.notes) ∧
    (p.created_at = none → (applyPatch p r).created_at = r.created_at) ∧
    (∀ v : Int, p.systolic = some v → (applyPatch p r).systolic = v) ∧
    (∀ v : Int, p.diastolic = some v → (applyPatch p r).diastolic = v) ∧
    (∀ v : Int, p.pulse = some v → (applyPatch p r).pulse = v) ∧
    (∀ v : String, p.timestamp = some v → (applyPatch p r).timestamp = v) := by
  refine ⟨?_, ?_, ?_, ?_, ?_, ?_, ?_, ?_, ?_, ?_, ?_, ?_, ?_, ?_⟩
  · rw [getAllReadings_mem]
    refine ⟨?_, by simp [applyPatch, hpu, huid]⟩
    unfold updateReading
    refine List.mem_map.mpr ⟨r, hr, ?_⟩
    simp [hid, huid]
  · intro h
    simp [applyPatch, h]
  · simp [applyPatch, hpu]
  · intro h
    simp [applyPatch, h]
  · intro h
    simp [applyPatch, h]
  · intro h
    simp [applyPatch, h]
  · intro h
    simp [applyPatch, h]
  · intro h
    simp [applyPatch, h]
  · intro h
    simp [applyPatch, h]
  · intro h
    simp [applyPatch, h]
  · intro v hv
    simp [applyPatch, hv]
  · intro v hv
    simp [applyPatch, hv]
  · intro v hv
    simp [applyPatch, hv]
  · intro v hv
    simp [applyPatch, hv]

/-- Witness for C8 on a one-row store patched with systolic 130. -/
theorem updateReading_roundtrip_witness :
    sampleReading ∈ ([sampleReading] : List BloodPressureReading) ∧
    applyPatch samplePatch sampleReading ∈
      getAllReadings (updateReading [sampleReading] "u1" "id1" samplePatch) "u1" ∧
    (applyPatch samplePatch sampleReading).systolic = 130 :=
  ⟨by decide,
   (updateReading_roundtrip [sampleReading] "u1" "id1" samplePatch sampleReading
     (by decide) (by decide) (by decide) (by decide)).1,
   (updateReading_roundtrip [sampleReading] "u1" "id1" samplePatch sampleReading
     (by decide) (by decide) (by decide) (by decide)).2.2.2.2.2.2.2.2.2.2.1 130 (by decide)⟩

/-- Reading the key just assigned on a field list gives the assigned
value. -/
theorem objGet_objSet_self (fs : List (List Char × JSValue)) (k : List Char) (v : JSValue) :
    objGet (objSet fs k v) k = some v := by
  induction fs with
  | nil => simp [objSet, objGet]
  | cons f fs ih =>
    by_cases h : f.1 = k
    · simp [objSet, objGet, h]
    · simp [objSet, objGet, h, ih]

/-- Assigning one key leaves every other key unchanged. -/
theorem objGet_objSet_ne (fs : List (List Char × JSValue)) (k k' : List Char)
    (v : JSValue) (h : k' ≠ k) :
    objGet (objSet fs k' v) k = objGet fs k := by
  induction fs with
  | nil => simp [objSet, objGet, h]
  | cons f fs ih =>
    by_cases hf : f.1 = k'
    · have hfk : ¬f.1 = k := by
        rw [hf]
        exact h
      simp [objSet, objGet, hf, h, hfk]
    · simp only [objSet, objGet]
      rw [if_neg hf]
      simp only [objGet]
      by_cases hk : f.1 = k
      · simp [hk]
      · simp [hk, ih]

/-- C3 counterexample: on a complete, well-formed Anthropic response the
returned analysis result carries the timestamp the model reported (a
2020 instant), not a completion time computed by the client — the
Anthropic branch performs no timestamp overwrite at all. -/
theorem anthropic_returns_model_timestamp :
    analyzeWithAnthropic anthropicSampleContent = some (JSValue.obj anthropicSampleFields) ∧
    resultTimestamp (analyzeWithAnthropic anthropicSampleContent) =
      some (JSValue.str "2020-01-01T00:00:00Z".toList) ∧
    ("2020-01-01T00:00:00Z" : String) ≠ "2025-06-01T12:00:00.000Z" :=
  ⟨rfl, rfl, by decide⟩

/-- C3 amended: under the OpenAI provider the returned timestamp is
always the client-computed completion time regardless of what the model
reported; under the Anthropic provider the parsed model object is
returned unchanged, so its timestamp is whatever the model reported. -/
theorem timestamp_overwrite_per_provider (content now : List Char) (usage : JSValue)
    (fs : List (List Char × JSValue))
    (h : parseLLMResponse content = some (JSValue.obj fs)) :
    analyzeWithOpenAI content now usage =
      some (JSValue.obj (objSet (objSet fs timestampKey (JSValue.str now)) usageKey usage)) ∧
    resultTimestamp (analyzeWithOpenAI content now usage) = some (JSValue.str now) ∧
    analyzeWithAnthropic content = some (JSValue.obj fs) ∧
    resultTimestamp (analyzeWithAnthropic content) = objGet fs timestampKey := by
  have hopen : analyzeWithOpenAI content now usage =
      some (JSValue.obj (objSet (objSet fs timestampKey (JSValue.str now)) usageKey usage)) := by
    simp [analyzeWithOpenAI, h]
  refine ⟨hopen, ?_, ?_, ?_⟩
  · rw [hopen]
    simp only [resultTimestamp]
    rw [objGet_objSet_ne _ _ _ _ (by decide), objGet_objSet_self]
  · simp [analyzeWithAnthropic, h]
  · simp [analyzeWithAnthropic, resultTimestamp, h]

/-- Witness for C3 amended on the sample response and completion time. -/
theorem timestamp_overwrite_per_provider_witness :
    parseLLMResponse anthropicSampleContent = some (JSValue.obj anthropicSampleFields) ∧
    resultTimestamp (analyzeWithOpenAI anthropicSampleContent clientCompletionTime JSValue.null) =
      some (JSValue.str clientCompletionTime) :=
  ⟨rfl,
   (timestamp_overwrite_per_provider anthropicSampleContent clientCompletionTime
     JSValue.null anthropicSampleFields rfl).2.1⟩

/-- The line-comment scan is the identity on a text with no pair of
adjacent slashes. -/
theorem stripLineCommentsAux_id (l : List Char) (h : hasPair '/' '/' l = false) :
    stripLineCommentsAux false l = l := by
  induction l with
  | nil => rfl
  | cons c cs ih =>
    cases cs with
    | nil => rfl
    | cons c₂ cs₂ =>
      simp only [hasPair, Bool.or_eq_false_iff, decide_eq_false_iff_not] at h
      simp only [stripLineCommentsAux]
      rw [if_neg h.1, ih h.2]

/-- The block-comment scan is the identity on a text with no comment
opener. -/
theorem stripBlockCommentsAux_id (l : List Char) (h : hasPair '/' '*' l = false) :
    stripBlockCommentsAux false l = l := by
  induction l with
  | nil => rfl
  | cons c cs ih =>
    cases cs with
    | nil => rfl
    | cons c₂ cs₂ =>
      simp only [hasPair, Bool.or_eq_false_iff, decide_eq_false_iff_not] at h
      simp only [stripBlockCommentsAux]
      rw [if_neg h.1, ih h.2]

/-- The fence pattern cannot match at a position that does not start with
a backtick. -/
theorem matchAt_eq_none (l : List Char) (h : tick ∉ l) : matchAt l = none := by
  cases l with
  | nil => rfl
  | cons c cs =>
    have hc : tick ≠ c := fun he => h (he ▸ List.mem_cons_self c cs)
    simp [matchAt, fenceTicks, hasPre, hc]

/-- A text with no backtick has no fence match anywhere. -/
theorem regexSearch_eq_none (l : List Char) (h : tick ∉ l) : regexSearch l = none := by
  induction l with
  | nil => rfl
  | cons c cs ih =>
    have h2 : tick ∉ cs := fun hm => h (List.mem_cons_of_mem c hm)
    simp [regexSearch, matchAt_eq_none _ h, ih h2]

/-- Fence extraction leaves a text with no backtick unchanged. -/
theorem extractJson_of_no_tick (l : List Char) (h : tick ∉ l) : extractJson l = l := by
  simp [extractJson, regexSearch_eq_none l h]

/-- When a fence match exists at the first position, the leftmost search
returns it. -/
theorem regexSearch_of_matchAt (l g : List Char) (hl : l ≠ [])
    (hm : matchAt l = some g) : regexSearch l = some g := by
  cases l with
  | nil => exact absurd rfl hl
  | cons c cs => simp [regexSearch, hm]

/-- After an interior closing brace of a backtick-free body, the tail can
never be whitespace followed by a closing fence, because the final brace
of the group is in the way. -/
theorem fenceTailOk_append_rbrace (l₁ l₂ : List Char) (h : tick ∉ l₁) :
    fenceTailOk (l₁ ++ rbrace :: l₂) = false := by
  induction l₁ with
  | nil => simp [fenceTailOk, skipWs, isJsWs, hasPre, fenceTicks, rbrace, tick]
  | cons c l₁ ih =>
    have hc : tick ≠ c := fun he => h (he ▸ List.mem_cons_self _ _)
    have h2 : tick ∉ l₁ := fun hm => h (List.mem_cons_of_mem _ hm)
    by_cases hw : isJsWs c = true
    · simpa [fenceTailOk, skipWs, hw] using ih h2
    · simp [fenceTailOk, skipWs, hw, hasPre, fenceTicks, hc]

/-- The lazy group body extends exactly to the closing brace that is
followed by the closing fence. -/
theorem lazyBody_append (body rest : List Char) (h : tick ∉ body)
    (hrest : fenceTailOk rest = true) :
    lazyBody (body ++ rbrace :: rest) = some (body ++ [rbrace]) := by
  induction body with
  | nil => simp [lazyBody, hrest]
  | cons c body ih =>
    have h2 : tick ∉ body := fun hm => h (List.mem_cons_of_mem _ hm)
    have hko : fenceTailOk (body ++ rbrace :: rest) = false :=
      fenceTailOk_append_rbrace body rest h2
    simp [lazyBody, hko, ih h2]

/-- The closing fence passes the tail test. -/
theorem fenceTailOk_fenceClose : fenceTailOk fenceClose = true := by
  simp [fenceTailOk, fenceClose, skipWs, isJsWs, hasPre, fenceTicks, tick]

/-- The fence pattern anchored at a tagged opening fence captures exactly
the brace group. -/
theorem matchAt_fenceJson (body : List Char) (h : tick ∉ body) :
    matchAt (fenceJsonOpen ++ (lbrace :: body ++ [rbrace]) ++ fenceClose) =
      some (lbrace :: body ++ [rbrace]) := by
  have hshape : fenceJsonOpen ++ (lbrace :: body ++ [rbrace]) ++ fenceClose =
      fenceJsonOpen ++ (lbrace :: (body ++ rbrace :: fenceClose)) := by simp
  rw [hshape]
  simp [matchAt, fenceJsonOpen, hasPre, fenceTicks, skipWs, isJsWs, lbrace, tick,
    lazyBody_append body fenceClose h fenceTailOk_fenceClose]

/-- The fence pattern anchored at an untagged opening fence captures
exactly the brace group. -/
theorem matchAt_fencePlain (body : List Char) (h : tick ∉ body) :
    matchAt (fencePlainOpen ++ (lbrace :: body ++ [rbrace]) ++ fenceClose) =
      some (lbrace :: body ++ [rbrace]) := by
  have hshape : fencePlainOpen ++ (lbrace :: body ++ [rbrace]) ++ fenceClose =
      fencePlainOpen ++ (lbrace :: (body ++ rbrace :: fenceClose)) := by simp
  rw [hshape]
  simp [matchAt, fencePlainOpen, hasPre, fenceTicks, skipWs, isJsWs, lbrace, tick,
    lazyBody_append body fenceClose h fenceTailOk_fenceClose]

/-- C6 counterexample: the response `\x7b"notes":"http://a"\x7d` is a
well-formed JSON object (no code fence, no comment), yet the comment
stripping removes everything from the two slashes inside the string
value to the end of the line, so `JSON.parse` fails and the provider
reports a parse error on a response that can be coerced into the
expected field set. -/
theorem comment_stripping_breaks_url :
    jsonParse urlResponse =
      some (JSValue.obj [("notes".toList, JSValue.str "http://a".toList)]) ∧
    extractJson urlResponse = urlResponse ∧
    parseLLMResponse urlResponse = none :=
  ⟨rfl, rfl, rfl⟩

/-- C6 amended: for every response text that is a JSON object whose
characters contain no backtick and no comment opener (in particular no
pair of slashes inside a string value), the parsing step succeeds and
returns the parsed object, whether the object is bare or wrapped in a
```/```json fenced code block; a line comment whose removal leaves valid
JSON is likewise tolerated, and no expected-field validation occurs:
an object with none of the analysis fields parses successfully. -/
theorem parse_pipeline_tolerates_fences (body : List Char) (v : JSValue)
    (hb : tick ∉ body)
    (hl : hasPair '/' '/' (lbrace :: body ++ [rbrace]) = false)
    (hc : hasPair '/' '*' (lbrace :: body ++ [rbrace]) = false)
    (hv : jsonParse (lbrace :: body ++ [rbrace]) = some v) :
    parseLLMResponse (lbrace :: body ++ [rbrace]) = some v ∧
    parseLLMResponse (fenceJsonOpen ++ (lbrace :: body ++ [rbrace]) ++ fenceClose) = some v ∧
    parseLLMResponse (fencePlainOpen ++ (lbrace :: body ++ [rbrace]) ++ fenceClose) = some v ∧
    parseLLMResponse lineCommentSample =
      some (JSValue.obj [("a".toList, JSValue.num ⟨1, 0⟩), ("b".toList, JSValue.num ⟨2, 0⟩)]) ∧
    parseLLMResponse unexpectedFieldsSample =
      some (JSValue.obj [("foo".toList, JSValue.num ⟨1, 0⟩)]) := by
  have ht : tick ∉ lbrace :: body ++ [rbrace] := by
    intro hm
    rcases List.mem_cons.mp hm with h1 | h1
    · exact absurd h1 (by decide)
    · rcases List.mem_append.mp h1 with h2 | h2
      · exact hb h2
      · exact absurd (List.mem_singleton.mp h2) (by decide)
  refine ⟨?_, ?_, ?_, rfl, rfl⟩
  · simp only [parseLLMResponse, stripLineComments, stripBlockComments]
    rw [extractJson_of_no_tick _ ht, stripLineCommentsAux_id _ hl,
      stripBlockCommentsAux_id _ hc, hv]
  · simp only [parseLLMResponse, stripLineComments, stripBlockComments, extractJson]
    rw [regexSearch_of_matchAt _ _ (by simp [fenceJsonOpen]) (matchAt_fenceJson body hb),
      stripLineCommentsAux_id _ hl, stripBlockCommentsAux_id _ hc, hv]
  · simp only [parseLLMResponse, stripLineComments, stripBlockComments, extractJson]
    rw [regexSearch_of_matchAt _ _ (by simp [fencePlainOpen]) (matchAt_fencePlain body hb),
      stripLineCommentsAux_id _ hl, stripBlockCommentsAux_id _ hc, hv]

/-- Witness for C6 amended on a small object, bare and fenced. -/
theorem parse_pipeline_tolerates_fences_witness :
    jsonParse (lbrace :: "\"confidence\":1".toList ++ [rbrace]) =
      some (JSValue.obj [("confidence".toList, JSValue.num ⟨1, 0⟩)]) ∧
    parseLLMResponse (lbrace :: "\"confidence\":1".toList ++ [rbrace]) =
      some (JSValue.obj [("confidence".toList, JSValue.num ⟨1, 0⟩)]) ∧
    parseLLMResponse
        (fenceJsonOpen ++ (lbrace :: "\"confidence\":1".toList ++ [rbrace]) ++ fenceClose) =
      some (JSValue.obj [("confidence".toList, JSValue.num ⟨1, 0⟩)]) :=
  ⟨rfl,
   (parse_pipeline_tolerates_fences "\"confidence\":1".toList _ (by decide) rfl rfl rfl).1,
   (parse_pipeline_tolerates_fences "\"confidence\":1".toList _ (by decide) rfl rfl rfl).2.1⟩

end BPA
